import Mathlib

/-
Verification of the serverless parameter-sweep engine
(infra/aws_serverless_sweep/lambda/serverless_sweep.py).

The Python module is embedded shallowly: JSON-like payload values become the
inductive type PyVal, Python exceptions become the PyErr sum carried in
Except, machine-independent Python integers become Nat/Int, and the two
Lambda handlers become pure functions that additionally return the list of
side effects they performed (dispatch invocations for the parent, outcome
writes for the child).  Ambient time (datetime.now) is passed in explicitly.
-/

namespace SweepVerify



/-- PyVal models the JSON-compatible Python values the sweep module
manipulates: strings, integers, lists and string-keyed dicts.  A dict is an
association list in insertion order; Python dicts have unique keys. -/
inductive PyVal where
  | pstr (s : String)
  | pint (n : Int)
  | plist (xs : List PyVal)
  | pdict (kvs : List (String × PyVal))
deriving Repr

/-- PyDict models one Python dict payload (insertion-ordered, unique keys). -/
abbrev PyDict := List (String × PyVal)

/-- Python dict lookup: d.get(key), None when absent. -/
def dictGet (d : PyDict) (key : String) : Option PyVal :=
  (d.find? (fun kv => kv.1 == key)).map (fun kv => kv.2)

/-- PyErr models the exceptions raised by the module: ValidationError
(a ValueError subclass used for user errors) and RuntimeError. -/
inductive PyErr where
  | validationError (msg : String)
  | runtimeError (msg : String)
deriving DecidableEq, Repr

/-- Python type(err).__name__ for the modelled exceptions. -/
def PyErr.typeName : PyErr → String
  | .validationError _ => "ValidationError"
  | .runtimeError _ => "RuntimeError"

/-- Python str(err) for the modelled exceptions. -/
def PyErr.message : PyErr → String
  | .validationError m => m
  | .runtimeError m => m

/- SHA-256, translated from the standard the Python hashlib implements.
Words are Nat values reduced mod 2^32. -/

/-- Reduce to a 32-bit word. -/
def w32 (x : Nat) : Nat := x % 4294967296

/-- Right-rotate a 32-bit word by n. -/
def rotr (n x : Nat) : Nat := w32 (x / 2 ^ n + x % 2 ^ n * 2 ^ (32 - n))

/-- Logical right shift. -/
def shr (n x : Nat) : Nat := x / 2 ^ n

/-- The 64 SHA-256 round constants (FIPS 180-4, written in decimal). -/
def sha256K : List Nat :=
  [1116352408, 1899447441, 3049323471, 3921009573, 961987163, 1508970993,
   2453635748, 2870763221, 3624381080, 310598401, 607225278, 1426881987,
   1925078388, 2162078206, 2614888103, 3248222580, 3835390401, 4022224774,
   264347078, 604807628, 770255983, 1249150122, 1555081692, 1996064986,
   2554220882, 2821834349, 2952996808, 3210313671, 3336571891, 3584528711,
   113926993, 338241895, 666307205, 773529912, 1294757372, 1396182291,
   1695183700, 1986661051, 2177026350, 2456956037, 2730485921, 2820302411,
   3259730800, 3345764771, 3516065817, 3600352804, 4094571909, 275423344,
   430227734, 506948616, 659060556, 883997877, 958139571, 1322822218,
   1537002063, 1747873779, 1955562222, 2024104815, 2227730452, 2361852424,
   2428436474, 2756734187, 3204031479, 3329325298]

/-- Running 8-word SHA-256 hash state. -/
structure Hash8 where
  h0 : Nat
  h1 : Nat
  h2 : Nat
  h3 : Nat
  h4 : Nat
  h5 : Nat
  h6 : Nat
  h7 : Nat
deriving DecidableEq, Repr

/-- Initial SHA-256 hash values (FIPS 180-4, written in decimal). -/
def sha256Init : Hash8 :=
  ⟨1779033703, 3144134277, 1013904242, 2773480762,
   1359893119, 2600822924, 528734635, 1541459225⟩

/-- One SHA-256 compression round; kw is the round constant plus the
scheduled word, already reduced mod 2^32. -/
def sha256Round (s : Hash8) (kw : Nat) : Hash8 :=
  let bigS1 := Nat.xor (rotr 6 s.h4) (Nat.xor (rotr 11 s.h4) (rotr 25 s.h4))
  let ch := Nat.xor (Nat.land s.h4 s.h5) (Nat.land (Nat.xor s.h4 4294967295) s.h6)
  let temp1 := w32 (s.h7 + bigS1 + ch + kw)
  let bigS0 := Nat.xor (rotr 2 s.h0) (Nat.xor (rotr 13 s.h0) (rotr 22 s.h0))
  let maj := Nat.xor (Nat.land s.h0 s.h1)
    (Nat.xor (Nat.land s.h0 s.h2) (Nat.land s.h1 s.h2))
  let temp2 := w32 (bigS0 + maj)
  ⟨w32 (temp1 + temp2), s.h0, s.h1, s.h2, w32 (s.h3 + temp1), s.h4, s.h5, s.h6⟩

/-- Message-schedule sigma-0. -/
def sigma0 (x : Nat) : Nat := Nat.xor (rotr 7 x) (Nat.xor (rotr 18 x) (shr 3 x))

/-- Message-schedule sigma-1. -/
def sigma1 (x : Nat) : Nat := Nat.xor (rotr 17 x) (Nat.xor (rotr 19 x) (shr 10 x))

/-- Extend the 16 block words to the 64 scheduled words (48 extension steps). -/
def extendSchedule : Nat → List Nat → List Nat
  | 0, ws => ws
  | n + 1, ws =>
      let len := ws.length
      let wNew := w32 (sigma1 (ws.getD (len - 2) 0) + ws.getD (len - 7) 0 +
        sigma0 (ws.getD (len - 15) 0) + ws.getD (len - 16) 0)
      extendSchedule n (ws ++ [wNew])

/-- Group bytes into big-endian 32-bit words. -/
def bytesToWords : List Nat → List Nat
  | b0 :: b1 :: b2 :: b3 :: rest =>
      (((b0 * 256 + b1) * 256 + b2) * 256 + b3) :: bytesToWords rest
  | _ => []

/-- Big-endian byte serialization of a value into a fixed byte count. -/
def natToBytesBE : Nat → Nat → List Nat
  | 0, _ => []
  | n + 1, v => natToBytesBE n (v / 256) ++ [v % 256]

/-- SHA-256 padding: append 0x80, zeros, then the 64-bit big-endian bit
length, reaching a multiple of 64 bytes. -/
def sha256Pad (msg : List Nat) : List Nat :=
  let len := msg.length
  let zeros := (64 - (len + 9) % 64) % 64
  msg ++ [128] ++ List.replicate zeros 0 ++ natToBytesBE 8 (len * 8)

/-- Split a byte sequence into 64-byte blocks (fuel-based structural
recursion so the kernel can evaluate it; the fuel is an upper bound on the
number of blocks and each step consumes at least one byte). -/
def toBlocksGo : Nat → List Nat → List (List Nat)
  | _, [] => []
  | 0, _ => []
  | fuel + 1, l => l.take 64 :: toBlocksGo fuel (l.drop 64)

/-- Split a padded message into 64-byte blocks. -/
def toBlocks (l : List Nat) : List (List Nat) := toBlocksGo l.length l

/-- Compress one 64-byte block into the running hash state. -/
def sha256Compress (s : Hash8) (block : List Nat) : Hash8 :=
  let ws := extendSchedule 48 (bytesToWords block)
  let t := (sha256K.zip ws).foldl (fun st p => sha256Round st (w32 (p.1 + p.2))) s
  ⟨w32 (s.h0 + t.h0), w32 (s.h1 + t.h1), w32 (s.h2 + t.h2), w32 (s.h3 + t.h3),
   w32 (s.h4 + t.h4), w32 (s.h5 + t.h5), w32 (s.h6 + t.h6), w32 (s.h7 + t.h7)⟩

/-- SHA-256 digest (32 bytes) of a byte sequence. -/
def sha256 (msg : List Nat) : List Nat :=
  let f := (toBlocks (sha256Pad msg)).foldl sha256Compress sha256Init
  natToBytesBE 4 f.h0 ++ natToBytesBE 4 f.h1 ++ natToBytesBE 4 f.h2 ++
    natToBytesBE 4 f.h3 ++ natToBytesBE 4 f.h4 ++ natToBytesBE 4 f.h5 ++
    natToBytesBE 4 f.h6 ++ natToBytesBE 4 f.h7

/-- UTF-8 encoding of one character. -/
def utf8Char (c : Char) : List Nat :=
  let n := c.toNat
  if n < 128 then [n]
  else if n < 2048 then [192 + n / 64, 128 + n % 64]
  else if n < 65536 then [224 + n / 4096, 128 + n / 64 % 64, 128 + n % 64]
  else [240 + n / 262144, 128 + n / 4096 % 64, 128 + n / 64 % 64, 128 + n % 64]

/-- UTF-8 encoding of a string (Python str.encode with default codec). -/
def utf8 (s : String) : List Nat := s.data.flatMap utf8Char

/- Canonical JSON serialization: json.dumps(value, sort_keys=True,
separators=(",", ":")) with the default ensure_ascii=True. -/

/-- Python str.strip(): remove leading and trailing whitespace.  (Char
isWhitespace covers the ASCII whitespace; the exotic Unicode space
characters Python additionally strips never appear in the claims.) -/
def pyStrip (s : String) : String :=
  String.mk (((s.data.dropWhile Char.isWhitespace).reverse.dropWhile
    Char.isWhitespace).reverse)

/-- Code-point lexicographic comparison of character lists, the order
Python uses to compare and sort strings. -/
def charListLE : List Char → List Char → Bool
  | [], _ => true
  | _ :: _, [] => false
  | a :: as, b :: bs =>
      if a.toNat < b.toNat then true
      else if b.toNat < a.toNat then false
      else charListLE as bs

/-- Python string comparison a <= b (code-point lexicographic; proved
below to agree with the Mathlib linear order on String). -/
def pyStrLE (a b : String) : Bool := charListLE a.data b.data

/-- Lowercase hex digit, as the Python json encoder emits. -/
def jsonHexDigit (n : Nat) : Char :=
  if n < 10 then Char.ofNat (48 + n) else Char.ofNat (87 + n)

/-- A \uXXXX escape for a 16-bit unit. -/
def jsonU16 (n : Nat) : String :=
  String.mk ['\\', 'u', jsonHexDigit (n / 4096 % 16), jsonHexDigit (n / 256 % 16),
    jsonHexDigit (n / 16 % 16), jsonHexDigit (n % 16)]

/-- Escape one character the way json.dumps (ensure_ascii=True) does:
printable ASCII except quote and backslash is literal, the short escapes are
used where defined, everything else becomes \uXXXX (surrogate pairs above
the BMP). -/
def jsonEscapeChar (c : Char) : String :=
  let n := c.toNat
  if c = '"' then "\\\""
  else if c = '\\' then "\\\\"
  else if n = 8 then "\\b"
  else if n = 9 then "\\t"
  else if n = 10 then "\\n"
  else if n = 12 then "\\f"
  else if n = 13 then "\\r"
  else if 32 ≤ n ∧ n ≤ 126 then String.singleton c
  else if n < 65536 then jsonU16 n
  else jsonU16 (55296 + (n - 65536) / 1024) ++ jsonU16 (56320 + (n - 65536) % 1024)

/-- JSON string literal for s. -/
def jsonString (s : String) : String :=
  "\"" ++ String.join (s.data.map jsonEscapeChar) ++ "\""

/-- Sort an association list by key, modelling iteration of a Python dict
in sorted(d.keys()) order (keys are unique in a dict). -/
def sortByKey {α : Type} (kvs : List (String × α)) : List (String × α) :=
  kvs.insertionSort (fun a b => pyStrLE a.1 b.1 = true)

mutual

/-- Nesting depth of a PyVal, used as the serializer fuel. -/
def pyDepth : PyVal → Nat
  | .pstr _ => 1
  | .pint _ => 1
  | .plist xs => pyDepthList xs + 1
  | .pdict kvs => pyDepthKVs kvs + 1

/-- Maximum depth of a list of values. -/
def pyDepthList : List PyVal → Nat
  | [] => 0
  | x :: xs => max (pyDepth x) (pyDepthList xs)

/-- Maximum depth of the values of an association list. -/
def pyDepthKVs : List (String × PyVal) → Nat
  | [] => 0
  | (_, v) :: rest => max (pyDepth v) (pyDepthKVs rest)

end

/-- The serializer recurses on a fuel bound; the depth of the value always
suffices since every step strips one level of nesting. -/
def stableJsonFuel : Nat → PyVal → String
  | _, .pstr s => jsonString s
  | _, .pint n => toString n
  | 0, .plist _ => ""
  | 0, .pdict _ => ""
  | fuel + 1, .plist xs =>
      "[" ++ String.intercalate "," (xs.map (stableJsonFuel fuel)) ++ "]"
  | fuel + 1, .pdict kvs =>
      "\x7b" ++ String.intercalate ","
        ((sortByKey kvs).map (fun kv => jsonString kv.1 ++ ":" ++ stableJsonFuel fuel kv.2))
      ++ "\x7d"

/-- Embeds _stable_json: canonical key-sorted whitespace-free JSON. -/
def stable_json (v : PyVal) : String := stableJsonFuel (pyDepth v) v

/-- Embeds _sha256_seed: the first 8 bytes of the SHA-256 digest of the
parts joined by "|", as an unsigned big-endian integer. -/
def sha256_seed (parts : List String) : Nat :=
  ((sha256 (utf8 (String.intercalate "|" parts))).take 8).foldl
    (fun acc b => acc * 256 + b) 0

/-- Synthetic metrics produced by the deterministic evaluator. -/
structure Metrics where
  completed_rides : Nat
  abandoned_rides : Nat
  platform_revenue_cents : Nat
deriving DecidableEq, Repr

/-- Embeds _deterministic_result: hash the identifying tuple, then derive
the three metrics from the 64-bit state. -/
def deterministic_result (run_id : String) (shard_id : Int)
    (point : List (String × PyVal)) (seed : Int) : Metrics :=
  let point_json := stable_json (.pdict point)
  let state := sha256_seed [run_id, toString shard_id, point_json, toString seed]
  let completed_rides := state % 200 + 10
  let abandoned_rides := state / 10 % 40
  let revenue_cents := completed_rides * (500 + state % 1200)
  ⟨completed_rides, abandoned_rides, revenue_cents⟩

/-- Embeds _dimension_product: the ordered Cartesian product of the
dimension value lists; each point is a dict in dimension order, and the
leftmost dimension varies slowest (itertools.product order). -/
def dimension_product : List (String × List PyVal) → List (List (String × PyVal))
  | [] => [[]]
  | (name, vs) :: rest =>
      vs.flatMap (fun v => (dimension_product rest).map (fun combo => (name, v) :: combo))

/- Request validation (validate_sweep_request), staged per field exactly in
source order so each check can be inverted separately. -/

/-- Per-dimension value-count ceiling. -/
def MAX_DIMENSION_VALUES : Nat := 10000

/-- Global point-count ceiling. -/
def MAX_TOTAL_PARAMETER_POINTS : Nat := 200000

/-- Extract and validate run_id: required, a string, non-empty after strip. -/
def getRunId (payload : PyDict) : Except PyErr String :=
  match dictGet payload "run_id" with
  | none => .error (.validationError "Missing required field \x27run_id\x27")
  | some (.pstr s) =>
      if pyStrip s = "" then .error (.validationError "run_id cannot be empty")
      else .ok (pyStrip s)
  | some _ => .error (.validationError "Field \x27run_id\x27 must be str")

/-- View of a PyVal as a Python list (isinstance(v, list)). -/
def asPlist : PyVal → Option (List PyVal)
  | .plist vs => some vs
  | _ => none

/-- Check every dimension entry: non-empty name, non-empty value list not
exceeding the per-dimension ceiling; returns the typed entries.  (The
source rejects a non-list and an empty list with the same message.) -/
def checkDimensions : List (String × PyVal) → Except PyErr (List (String × List PyVal))
  | [] => .ok []
  | (name, v) :: rest =>
      if pyStrip name = "" then
        .error (.validationError "dimension names must be non-empty strings")
      else
        match asPlist v with
        | none => .error (.validationError ("Dimension \x27" ++ name ++ "\x27 must be a non-empty list"))
        | some values =>
            if values.isEmpty then
              .error (.validationError ("Dimension \x27" ++ name ++ "\x27 must be a non-empty list"))
            else if values.length > MAX_DIMENSION_VALUES then
              .error (.validationError ("Dimension \x27" ++ name ++ "\x27 exceeds MAX_DIMENSION_VALUES=10000"))
            else
              match checkDimensions rest with
              | .error e => .error e
              | .ok r => .ok ((name, values) :: r)

/-- Extract and validate the dimensions dict. -/
def getDims (payload : PyDict) : Except PyErr (List (String × List PyVal)) :=
  match dictGet payload "dimensions" with
  | none => .error (.validationError "Missing required field \x27dimensions\x27")
  | some (.pdict kvs) =>
      if kvs.isEmpty then .error (.validationError "dimensions cannot be empty")
      else checkDimensions kvs
  | some _ => .error (.validationError "Field \x27dimensions\x27 must be dict")

/-- Check that an optional field, when present, is a positive integer
(shard_count / shard_size; the source uses one message for both the type
and the sign failure). -/
def checkPosIntOpt : Option PyVal → String → Except PyErr (Option Int)
  | none, _ => .ok none
  | some (.pint n), name =>
      if n ≤ 0 then .error (.validationError (name ++ " must be a positive integer"))
      else .ok (some n)
  | some _, name => .error (.validationError (name ++ " must be a positive integer"))

/-- Extract shard_count / shard_size: at least one present, each a positive
integer when present. -/
def getShardSpec (payload : PyDict) : Except PyErr (Option Int × Option Int) :=
  if (dictGet payload "shard_count").isNone ∧ (dictGet payload "shard_size").isNone then
    .error (.validationError "Either shard_count or shard_size is required")
  else
    match checkPosIntOpt (dictGet payload "shard_count") "shard_count" with
    | .error e => .error e
    | .ok scv =>
        match checkPosIntOpt (dictGet payload "shard_size") "shard_size" with
        | .error e => .error e
        | .ok ssv => .ok (scv, ssv)

/-- Extract max_shards (default 1000), a positive integer. -/
def getMaxShards (payload : PyDict) : Except PyErr Int :=
  match dictGet payload "max_shards" with
  | none => .ok 1000
  | some (.pint n) =>
      if n ≤ 0 then .error (.validationError "max_shards must be a positive integer")
      else .ok n
  | some _ => .error (.validationError "max_shards must be a positive integer")

/-- Extract seed (default 0), an integer. -/
def getSeed (payload : PyDict) : Except PyErr Int :=
  match dictGet payload "seed" with
  | none => .ok 0
  | some (.pint n) => .ok n
  | some _ => .error (.validationError "seed must be an integer")

/-- Read a Python list as a list of non-negative integers, when it is one. -/
def asNonNegInts : List PyVal → Option (List Int)
  | [] => some []
  | .pint n :: rest =>
      if n < 0 then none else (asNonNegInts rest).map (fun l => n :: l)
  | _ => none

/-- Extract failure_injection_shards (default empty), a list of
non-negative integers. -/
def getFis (payload : PyDict) : Except PyErr (List Int) :=
  match dictGet payload "failure_injection_shards" with
  | none => .ok []
  | some (.plist xs) =>
      match asNonNegInts xs with
      | some ns => .ok ns
      | none =>
          .error (.validationError "failure_injection_shards must be a list of non-negative integers")
  | some _ =>
      .error (.validationError "failure_injection_shards must be a list of non-negative integers")

/-- Running product of the dimension lengths, rejecting as soon as the
accumulated product exceeds the global ceiling. -/
def computeTotalPoints : List (String × List PyVal) → Nat → Except PyErr Nat
  | [], acc => .ok acc
  | (_, vs) :: rest, acc =>
      let acc2 := acc * vs.length
      if acc2 > MAX_TOTAL_PARAMETER_POINTS then
        .error (.validationError "Parameter space is too large for this demo deployment (>200000 points)")
      else computeTotalPoints rest acc2

/-- Ascending sort of a list of integers. -/
def sortInts (l : List Int) : List Int := l.insertionSort (fun a b => a ≤ b)

/-- SweepRequest is the normalized request validate_sweep_request returns. -/
structure SweepRequest where
  run_id : String
  dimensions : List (String × List PyVal)
  total_points : Nat
  max_shards : Int
  seed : Int
  failure_injection_shards : List Int
  shard_count : Option Int
  shard_size : Option Int
deriving Repr

/-- Embeds validate_sweep_request: every check in source order, then the
normalized output with sorted dimension keys, the attached total point
count, and failure_injection_shards sorted and deduplicated. -/
def validate_sweep_request (payload : PyDict) : Except PyErr SweepRequest :=
  match getRunId payload with
  | .error e => .error e
  | .ok run_id =>
  match getDims payload with
  | .error e => .error e
  | .ok dims =>
  match getShardSpec payload with
  | .error e => .error e
  | .ok spec =>
  match getMaxShards payload with
  | .error e => .error e
  | .ok max_shards =>
  match getSeed payload with
  | .error e => .error e
  | .ok seed =>
  match getFis payload with
  | .error e => .error e
  | .ok fis =>
  match computeTotalPoints dims 1 with
  | .error e => .error e
  | .ok total_points =>
      .ok { run_id := run_id
            dimensions := sortByKey dims
            total_points := total_points
            max_shards := max_shards
            seed := seed
            failure_injection_shards := sortInts fis.dedup
            shard_count := spec.1
            shard_size := spec.2 }

/- Shard partitioning (compute_shard_bounds). -/

/-- ShardBounds is a half-open index range assigned to one shard. -/
structure ShardBounds where
  shard_id : Nat
  start_index : Nat
  end_index : Nat
deriving DecidableEq, Repr

/-- Resolve the shard count: ceil(total/size) when shard_count is absent,
else min(shard_count, total_points).  Python computes math.ceil over float
division; for the validated domain (total_points ≤ 200000 < 2^53) that is
exactly the integer ceiling, embedded as (t + s - 1) / s.  When both are
absent Python would raise a TypeError; that case is unreachable after
validation and is modelled as a RuntimeError. -/
def resolveShardCount (r : SweepRequest) : Except PyErr Int :=
  match r.shard_count with
  | some c => .ok (min c (r.total_points : Int))
  | none =>
      match r.shard_size with
      | some s => .ok (((r.total_points : Int) + s - 1) / s)
      | none => .error (.runtimeError "shard_size is not set")

/-- The partition loop: for each shard_id starting at i, emit a range of
base (+1 while shard_id < remainder) points starting at the cursor. -/
def shardLoopGo (base remainder : Nat) : Nat → Nat → Nat → List ShardBounds
  | i, cursor, fuel + 1 =>
      ⟨i, cursor, cursor + (base + if i < remainder then 1 else 0)⟩ ::
        shardLoopGo base remainder (i + 1)
          (cursor + (base + if i < remainder then 1 else 0)) fuel
  | _, _, 0 => []

/-- Build the k shard bounds over [0, total). -/
def mkShardBounds (total k : Nat) : List ShardBounds :=
  shardLoopGo (total / k) (total % k) 0 0 k

/-- Defensive re-verification, success case: empty bounds pass, otherwise
the first start must be 0 and the last end must be total. -/
def coverOK (total : Nat) : List ShardBounds → Bool
  | [] => true
  | b :: rest =>
      b.start_index == 0 &&
        (match (b :: rest).getLast? with
         | some x => x.end_index == total
         | none => false)

/-- Defensive re-verification of adjacency of consecutive bounds. -/
def pairsAdjacent : List ShardBounds → Bool
  | a :: b :: rest => a.end_index == b.start_index && pairsAdjacent (b :: rest)
  | _ => true

/-- The tail of compute_shard_bounds: build the bounds, then the source
re-verifies coverage and adjacency defensively, raising RuntimeError on a
violation (an internal invariant failure, never expected). -/
def checkedBounds (total k : Nat) : Except PyErr (List ShardBounds) :=
  if !(coverOK total (mkShardBounds total k)) then
    .error (.runtimeError "Shard boundaries do not cover full parameter space")
  else if !(pairsAdjacent (mkShardBounds total k)) then
    .error (.runtimeError "Shard boundaries overlap or leave gaps")
  else .ok (mkShardBounds total k)

/-- Embeds compute_shard_bounds: resolve the count, enforce positivity and
the max_shards ceiling, build the bounds, re-verify coverage and adjacency. -/
def compute_shard_bounds (r : SweepRequest) : Except PyErr (List ShardBounds) :=
  match resolveShardCount r with
  | .error e => .error e
  | .ok count =>
      if count ≤ 0 then .error (.validationError "No shards to process")
      else if count > r.max_shards then
        .error (.validationError ("Computed shard count " ++ toString count ++
          " exceeds max_shards=" ++ toString r.max_shards))
      else checkedBounds r.total_points count.toNat

/- Parent handler (DispatchCoordinator). -/

/-- HttpResponse models _response: the status code plus the payload dict
that json.dumps serializes into the body (the Content-Type header is
constant and not modelled). -/
structure HttpResponse where
  statusCode : Nat
  body : PyVal
deriving Repr

/-- One recorded lambda_client.invoke call. -/
structure Invocation where
  functionName : String
  invocationType : String
  payload : String
deriving DecidableEq, Repr

/-- ShardTask is the self-contained child payload. -/
structure ShardTask where
  run_id : String
  dimensions : List (String × List PyVal)
  total_points : Int
  shard_id : Int
  start_index : Int
  end_index : Int
  seed : Int
  failure_injection_shards : List Int
deriving Repr

/-- The dimensions mapping as a PyVal dict. -/
def dimsToPy (dims : List (String × List PyVal)) : PyVal :=
  .pdict (dims.map (fun d => (d.1, .plist d.2)))

/-- The child payload dict exactly as parent_handler builds it
(insertion order of the source). -/
def taskToPy (t : ShardTask) : PyVal :=
  .pdict [("run_id", .pstr t.run_id),
          ("dimensions", dimsToPy t.dimensions),
          ("total_points", .pint t.total_points),
          ("shard_id", .pint t.shard_id),
          ("start_index", .pint t.start_index),
          ("end_index", .pint t.end_index),
          ("seed", .pint t.seed),
          ("failure_injection_shards", .plist (t.failure_injection_shards.map PyVal.pint))]

/-- The ShardTask the coordinator builds for one ShardBounds. -/
def mkChildTask (r : SweepRequest) (b : ShardBounds) : ShardTask :=
  { run_id := r.run_id
    dimensions := r.dimensions
    total_points := (r.total_points : Int)
    shard_id := (b.shard_id : Int)
    start_index := (b.start_index : Int)
    end_index := (b.end_index : Int)
    seed := r.seed
    failure_injection_shards := r.failure_injection_shards }

/-- Embeds _normalize_apigw_event for the payload shapes the model covers:
no body key means the event itself is the payload, a dict body is the
payload, any other body is a validation error.  (A string body is
JSON-parsed in the source; JSON parsing is not modelled and no claim
depends on it.) -/
def normalize_apigw_event (event : PyDict) : Except PyErr PyDict :=
  match dictGet event "body" with
  | none => .ok event
  | some (.pdict b) => .ok b
  | some _ => .error (.validationError "Request body must be a JSON object")

/-- The normalize-then-validate pipeline that sits inside the try/except
of parent_handler. -/
def parseRequest (event : PyDict) : Except PyErr SweepRequest :=
  match normalize_apigw_event event with
  | .error e => .error e
  | .ok p => validate_sweep_request p

/-- The lambda_client.invoke call parent_handler makes for one shard:
asynchronous (InvocationType Event) with the canonical ShardTask JSON. -/
def mkInvocation (arn : String) (r : SweepRequest) (shard : ShardBounds) : Invocation :=
  ⟨arn, "Event", stable_json (taskToPy (mkChildTask r shard))⟩

/-- The per-shard entry of the dispatch manifest. -/
def mkDispatchEntry (client : Invocation → Option Nat) (arn : String)
    (r : SweepRequest) (shard : ShardBounds) : PyVal :=
  .pdict [("shard_id", .pint (shard.shard_id : Int)),
    ("status_code", .pint (((client (mkInvocation arn r shard)).getD 0 : Nat) : Int))]

/-- The 202 response body parent_handler returns after dispatching. -/
def successBody (client : Invocation → Option Nat) (arn : String)
    (r : SweepRequest) (bounds : List ShardBounds) : PyVal :=
  .pdict [("run_id", .pstr r.run_id),
    ("total_points", .pint (r.total_points : Int)),
    ("shards_dispatched", .pint (bounds.length : Int)),
    ("dispatches", .plist (bounds.map (mkDispatchEntry client arn r))),
    ("status", .pstr "dispatch_submitted")]

/-- Field lookup in a PyVal dict (none for non-dicts). -/
def pyField (v : PyVal) (k : String) : Option PyVal :=
  match v with
  | .pdict kvs => dictGet kvs k
  | _ => none

/-- Embeds parent_handler.  The injected lambda client is a pure function
from the invocation to the optional StatusCode of its acknowledgement; the
returned list is every invoke call made, in order.  Only the
normalize/validate steps sit inside the try/except of the source, so a
ValidationError raised later (by compute_shard_bounds) propagates as an
uncaught exception, modelled by the Except.error result. -/
def parent_handler (event : PyDict) (childArn : Option String)
    (client : Invocation → Option Nat) : List Invocation × Except PyErr HttpResponse :=
  match parseRequest event with
  | .error (.validationError msg) =>
      ([], .ok ⟨400, .pdict [("error", .pstr "validation_error"),
        ("message", .pstr msg)]⟩)
  | .error e => ([], .error e)
  | .ok request =>
      if childArn.getD "" = "" then
        ([], .ok ⟨500, .pdict [("error", .pstr "misconfiguration"),
          ("message", .pstr "CHILD_LAMBDA_ARN must be configured")]⟩)
      else
        match compute_shard_bounds request with
        | .error e => ([], .error e)
        | .ok bounds =>
            (bounds.map (mkInvocation (childArn.getD "") request),
              .ok ⟨202, successBody client (childArn.getD "") request bounds⟩)

/- Child handler (ShardExecutor plus OutcomeRecorder). -/

/-- Python str.strip("/"): remove leading and trailing slash characters. -/
def stripSlashes (s : String) : String :=
  String.mk (((s.data.dropWhile (fun c => c = '/')).reverse.dropWhile
    (fun c => c = '/')).reverse)

/-- Embeds _partitioned_outcome_key; the UTC date (datetime.now at write
time) is passed in explicitly. -/
def partitioned_outcome_key (run_id status : String) (shard_id : Int)
    (pfx date : String) : String :=
  stripSlashes pfx ++ "/run_id=" ++ run_id ++ "/status=" ++ status ++
    "/date=" ++ date ++ "/shard_id=" ++ toString shard_id ++ ".json"

/-- Aggregate metrics of one shard. -/
structure ShardAggregate where
  points_processed : Nat
  completed_rides : Nat
  abandoned_rides : Nat
  platform_revenue_cents : Nat
deriving DecidableEq, Repr

/-- Summary dict _run_shard returns. -/
structure ShardSummary where
  run_id : String
  shard_id : Int
  start_index : Int
  end_index : Int
  metrics : ShardAggregate
deriving DecidableEq, Repr

/-- Embeds _run_shard: reconstruct the product, validate the bounds, slice
the shard and aggregate the deterministic metrics over its points. -/
def run_shard (t : ShardTask) :
    Except PyErr (List (List (String × PyVal)) × ShardSummary) :=
  let parameter_points := dimension_product t.dimensions
  if t.start_index < 0 ∨ (parameter_points.length : Int) < t.end_index ∨
      t.end_index ≤ t.start_index then
    .error (.validationError "Invalid shard bounds")
  else
    let shard_points := (parameter_points.drop t.start_index.toNat).take
      (t.end_index - t.start_index).toNat
    let aggregate := shard_points.foldl
      (fun agg point =>
        let m := deterministic_result t.run_id t.shard_id point t.seed
        { agg with
          completed_rides := agg.completed_rides + m.completed_rides
          abandoned_rides := agg.abandoned_rides + m.abandoned_rides
          platform_revenue_cents :=
            agg.platform_revenue_cents + m.platform_revenue_cents })
      ⟨shard_points.length, 0, 0, 0⟩
    .ok (shard_points,
      ⟨t.run_id, t.shard_id, t.start_index, t.end_index, aggregate⟩)

/-- The output_metadata attached to a success record. -/
structure OutputMetadata where
  result_key : String
  points_processed : Nat
  summary : ShardSummary
  format : String
deriving DecidableEq, Repr

/-- OutcomeRecord is the durable success/failure record. -/
structure OutcomeRecord where
  run_id : String
  shard_id : Int
  status : String
  start_index : Int
  end_index : Int
  event_time : String
  record_schema : String
  output_metadata : Option OutputMetadata
  error_code : Option String
  error_message : Option String
deriving DecidableEq, Repr

/-- Embeds _outcome_record; event_time (datetime.now at build time) is
passed in explicitly. -/
def outcome_record (t : ShardTask) (status : String) (eventTime : String)
    (meta : Option OutputMetadata) (err : Option PyErr) : OutcomeRecord :=
  { run_id := t.run_id
    shard_id := t.shard_id
    status := status
    start_index := t.start_index
    end_index := t.end_index
    event_time := eventTime
    record_schema := "v1"
    output_metadata := meta
    error_code := err.map PyErr.typeName
    error_message := err.map PyErr.message }

/-- One recorded outcome write (bucket, key, record). -/
structure OutcomeWrite where
  bucket : String
  key : String
  record : OutcomeRecord
deriving DecidableEq, Repr

/-- Result of one child invocation: the outcome writes performed plus
either the returned acknowledgement dict or the propagated exception. -/
structure ChildResult where
  writes : List OutcomeWrite
  result : Except PyErr PyVal
deriving Repr

/-- Embeds child_handler over an already well-typed ShardTask (the
required-keys loop of the source checks exactly that every field is present
with its type, which the structure typing provides; a task failing that
check raises before any write and no claim depends on it).  The outcome
writer is assumed to succeed; its calls are recorded in order.  The
failure-injection check runs before run_shard, and any exception in the
guarded block produces one failure record and is then re-raised.

childAttempt is the body of the try block: the injected-failure check, the
shard run, and the success key/record/acknowledgement. -/
def childAttempt (task : ShardTask) (p date eventTime : String) :
    Except PyErr (String × OutcomeRecord × PyVal) :=
  if task.shard_id ∈ task.failure_injection_shards then
    .error (.runtimeError "Injected shard failure for verification")
  else
    match run_shard task with
    | .error e => .error e
    | .ok r =>
        .ok (partitioned_outcome_key task.run_id "success" task.shard_id p date,
          outcome_record task "success" eventTime
            (some ⟨partitioned_outcome_key task.run_id "success" task.shard_id p date,
              r.1.length, r.2, "parquet-compatible-json"⟩) none,
          PyVal.pdict [("status", .pstr "ok"), ("shard_id", .pint task.shard_id),
            ("outcome_key",
              .pstr (partitioned_outcome_key task.run_id "success" task.shard_id p date))])

/-- Embeds child_handler: the bucket configuration check, then the guarded
attempt; on success one success-record write, on any exception one
failure-record write followed by re-raising the exception. -/
def child_handler (task : ShardTask) (bucket : Option String)
    (pfxEnv : Option String) (date eventTime : String) : ChildResult :=
  if bucket.getD "" = "" then
    ⟨[], .error (.runtimeError "SWEEP_RESULTS_BUCKET must be configured")⟩
  else
    match childAttempt task (pfxEnv.getD "serverless-sweeps/outcomes") date eventTime with
    | .ok (key, record, ack) => ⟨[⟨bucket.getD "", key, record⟩], .ok ack⟩
    | .error exc =>
        ⟨[⟨bucket.getD "",
            partitioned_outcome_key task.run_id "failure" task.shard_id
              (pfxEnv.getD "serverless-sweeps/outcomes") date,
            outcome_record task "failure" eventTime none (some exc)⟩],
          .error exc⟩

/- Lemmas about the partition loop. -/

/-- Total size of the fuel consecutive shards starting at shard i. -/
def sizesFrom (base remainder : Nat) : Nat → Nat → Nat
  | i, fuel + 1 =>
      (base + if i < remainder then 1 else 0) + sizesFrom base remainder (i + 1) fuel
  | _, 0 => 0

/-- PartitionExact states the exact-coverage partition property the spec
demands of the bounds list for a request with the given total: non-empty,
shard ids ascending from 0, first start 0, last end total, adjacent ranges,
sizes summing to total, and the first (total mod k) shards one point
larger than the rest. -/
def PartitionExact (total : Nat) (bs : List ShardBounds) : Prop :=
  bs ≠ [] ∧
  bs.map (fun b => b.shard_id) = List.range bs.length ∧
  bs.head?.map (fun b => b.start_index) = some 0 ∧
  bs.getLast?.map (fun b => b.end_index) = some total ∧
  List.Chain' (fun a b => a.end_index = b.start_index) bs ∧
  (bs.map (fun b => b.end_index - b.start_index)).sum = total ∧
  bs.map (fun b => b.end_index - b.start_index) =
    (List.range bs.length).map
      (fun j => total / bs.length + if j < total % bs.length then 1 else 0)

/- Concrete payloads used to instantiate the claims. -/

/-- The spec example request: dimensions a:[1,2], b:[1,2,3], shard_count 4. -/
def examplePayload : PyDict :=
  [("run_id", .pstr "unit-run"),
   ("dimensions", .pdict [("a", .plist [.pint 1, .pint 2]),
                          ("b", .plist [.pint 1, .pint 2, .pint 3])]),
   ("shard_count", .pint 4)]

/-- The normalized request the validator produces for examplePayload. -/
def exampleRequest : SweepRequest :=
  { run_id := "unit-run"
    dimensions := [("a", [.pint 1, .pint 2]), ("b", [.pint 1, .pint 2, .pint 3])]
    total_points := 6
    max_shards := 1000
    seed := 0
    failure_injection_shards := []
    shard_count := some 4
    shard_size := none }

/-- A request identical to the spec example but supplying shard_size 4
instead of shard_count. -/
def exampleRequestSize : SweepRequest :=
  { run_id := "unit-run"
    dimensions := [("a", [.pint 1, .pint 2]), ("b", [.pint 1, .pint 2, .pint 3])]
    total_points := 6
    max_shards := 1000
    seed := 0
    failure_injection_shards := []
    shard_count := none
    shard_size := some 4 }

/-- A request that validly supplies both shard_count 2 and shard_size 1
over the 6-point example space (validation allows both). -/
def bothSpecPayload : PyDict :=
  [("run_id", .pstr "run-both"),
   ("dimensions", .pdict [("a", .plist [.pint 1, .pint 2]),
                          ("b", .plist [.pint 1, .pint 2, .pint 3])]),
   ("shard_count", .pint 2),
   ("shard_size", .pint 1)]

/-- The normalized form of bothSpecPayload. -/
def bothSpecRequest : SweepRequest :=
  { run_id := "run-both"
    dimensions := [("a", [.pint 1, .pint 2]), ("b", [.pint 1, .pint 2, .pint 3])]
    total_points := 6
    max_shards := 1000
    seed := 0
    failure_injection_shards := []
    shard_count := some 2
    shard_size := some 1 }

/-- A request over the 6-point example space demanding 6 shards with
max_shards 2: its resolved shard count exceeds max_shards. -/
def maxShardsPayload : PyDict :=
  [("run_id", .pstr "run-max"),
   ("dimensions", .pdict [("a", .plist [.pint 1, .pint 2]),
                          ("b", .plist [.pint 1, .pint 2, .pint 3])]),
   ("shard_count", .pint 6),
   ("max_shards", .pint 2)]

/-- A request that passes validation with shard_count=10 over only 6
points. -/
def overcountPayload : PyDict :=
  [("run_id", .pstr "run-clamp"),
   ("dimensions", .pdict [("a", .plist [.pint 1, .pint 2]),
                          ("b", .plist [.pint 1, .pint 2, .pint 3])]),
   ("shard_count", .pint 10)]

/-- The normalized form of overcountPayload. -/
def overcountRequest : SweepRequest :=
  { run_id := "run-clamp"
    dimensions := [("a", [.pint 1, .pint 2]), ("b", [.pint 1, .pint 2, .pint 3])]
    total_points := 6
    max_shards := 1000
    seed := 0
    failure_injection_shards := []
    shard_count := some 10
    shard_size := none }

/-- NormalizedOK collects the normalization guarantees of claim C9 for an
accepted payload: dimensions re-keyed in sorted name order (a permutation
of the typed input), total_points equal to the product of the dimension
lengths and within the global ceiling (so oversized requests are
rejected), every dimension non-empty and within the per-dimension
ceiling, and failure_injection_shards sorted and deduplicated while
preserving the input set. -/
def NormalizedOK (payload : PyDict) (r : SweepRequest) : Prop :=
  ((r.dimensions.map Prod.fst).Sorted (fun a b => a ≤ b)) ∧
  (∀ dkvs tds, dictGet payload "dimensions" = some (.pdict dkvs) →
    checkDimensions dkvs = .ok tds → r.dimensions.Perm tds) ∧
  r.total_points = (r.dimensions.map (fun d => d.2.length)).prod ∧
  1 ≤ r.total_points ∧
  r.total_points ≤ MAX_TOTAL_PARAMETER_POINTS ∧
  (∀ d ∈ r.dimensions, d.2 ≠ [] ∧ d.2.length ≤ MAX_DIMENSION_VALUES) ∧
  r.failure_injection_shards.Sorted (fun a b => a ≤ b) ∧
  r.failure_injection_shards.Nodup ∧
  (∀ xs ns, dictGet payload "failure_injection_shards" = some (.plist xs) →
    asNonNegInts xs = some ns →
    ∀ x, x ∈ r.failure_injection_shards ↔ x ∈ ns)

/-- A payload with unsorted dimension names and duplicated, unsorted
failure_injection_shards. -/
def c9Payload : PyDict :=
  [("run_id", .pstr "norm"),
   ("dimensions", .pdict [("b", .plist [.pint 1, .pint 2, .pint 3]),
                          ("a", .plist [.pint 1, .pint 2])]),
   ("shard_count", .pint 2),
   ("failure_injection_shards", .plist [.pint 3, .pint 1, .pint 3])]

/-- The normalized form of c9Payload. -/
def c9Request : SweepRequest :=
  { run_id := "norm"
    dimensions := [("a", [.pint 1, .pint 2]), ("b", [.pint 1, .pint 2, .pint 3])]
    total_points := 6
    max_shards := 1000
    seed := 0
    failure_injection_shards := [1, 3]
    shard_count := some 2
    shard_size := none }

/-- The invalid payload of the source test: a run_id but no dimensions. -/
def missingDimsPayload : PyDict := [("run_id", .pstr "missing-dimensions")]

/-- The partial-failure scenario payload: the spec example dimensions with
shard_count 4 and failure_injection_shards [2]. -/
def failPayload : PyDict :=
  [("run_id", .pstr "run-7"),
   ("dimensions", .pdict [("a", .plist [.pint 1, .pint 2]),
                          ("b", .plist [.pint 1, .pint 2, .pint 3])]),
   ("shard_count", .pint 4),
   ("failure_injection_shards", .plist [.pint 2])]

/-- The normalized form of failPayload. -/
def failRequest : SweepRequest :=
  { run_id := "run-7"
    dimensions := [("a", [.pint 1, .pint 2]), ("b", [.pint 1, .pint 2, .pint 3])]
    total_points := 6
    max_shards := 1000
    seed := 0
    failure_injection_shards := [2]
    shard_count := some 4
    shard_size := none }

/-- The four bounds the coordinator produces for failPayload. -/
def failBounds : List ShardBounds := [⟨0, 0, 2⟩, ⟨1, 2, 4⟩, ⟨2, 4, 5⟩, ⟨3, 5, 6⟩]

/-- All outcome writes produced by executing every dispatched task of the
partial-failure scenario. -/
def failOutcomes (date eventTime : String) : List OutcomeWrite :=
  (failBounds.map (fun b => child_handler (mkChildTask failRequest b)
    (some "results-bucket") none date eventTime)).flatMap (fun o => o.writes)

/-- Sanity check of the SHA-256 embedding against the FIPS 180 test vector
for the message "abc". -/
example : sha256 (utf8 "abc") =
    [186, 120, 22, 191, 143, 1, 207, 234, 65, 65, 64, 222, 93, 174, 34,
     35, 176, 3, 97, 163, 150, 23, 122, 156, 180, 16, 255, 97, 242, 0, 21,
     173] := by decide

/- The code-point comparison agrees with the Mathlib String order. -/

theorem char_lt_iff (a b : Char) : a < b ↔ a.toNat < b.toNat := by
  rw [Char.lt_def]
  exact Iff.rfl

theorem char_eq_of_toNat {a b : Char} (h : a.toNat = b.toNat) : a = b := by
  apply Char.ext
  apply UInt32.eq_of_toBitVec_eq
  apply BitVec.toNat_injective
  exact h

theorem charListLE_not_lt : ∀ as bs : List Char, charListLE as bs = true ↔ ¬ bs < as := by
  intro as
  induction as with
  | nil =>
      intro bs
      simp only [charListLE, true_iff]
      intro h
      nomatch h
  | cons a as ih =>
      intro bs
      cases bs with
      | nil =>
          simp only [charListLE, Bool.false_eq_true, false_iff, not_not]
          exact List.Lex.nil
      | cons b bs =>
          simp only [charListLE]
          rcases Nat.lt_trichotomy a.toNat b.toNat with hlt | heq | hgt
          · rw [if_pos hlt]
            simp only [true_iff]
            intro hcon
            cases hcon with
            | cons h3 => omega
            | rel hx => exact absurd ((char_lt_iff b a).mp hx) (by omega)
          · have hab : a = b := char_eq_of_toNat heq
            subst hab
            rw [if_neg (by omega), if_neg (by omega)]
            rw [ih bs]
            constructor
            · intro h hcon
              cases hcon with
              | cons h3 => exact h h3
              | rel hx => exact absurd ((char_lt_iff a a).mp hx) (by omega)
            · intro h hcon
              exact h (List.Lex.cons hcon)
          · rw [if_neg (by omega), if_pos hgt]
            simp only [Bool.false_eq_true, false_iff, not_not]
            exact List.Lex.rel ((char_lt_iff b a).mpr hgt)

/-- pyStrLE is exactly the Mathlib linear order on String. -/
theorem pyStrLE_iff (a b : String) : pyStrLE a b = true ↔ a ≤ b := by
  rw [pyStrLE, charListLE_not_lt, not_lt]
  exact Iff.symm String.le_iff_toList_le

theorem shardLoopGo_length (base remainder : Nat) :
    ∀ fuel i cursor, (shardLoopGo base remainder i cursor fuel).length = fuel := by
  intro fuel
  induction fuel with
  | zero => intro i cursor; rfl
  | succ f ih => intro i cursor; simp [shardLoopGo, ih]

theorem shardLoopGo_map_id (base remainder : Nat) :
    ∀ fuel i cursor,
      (shardLoopGo base remainder i cursor fuel).map (fun b => b.shard_id) =
        List.range' i fuel := by
  intro fuel
  induction fuel with
  | zero => intro i cursor; rfl
  | succ f ih =>
      intro i cursor
      simp [shardLoopGo, List.range', ih]

theorem shardLoopGo_map_size (base remainder : Nat) :
    ∀ fuel i cursor,
      (shardLoopGo base remainder i cursor fuel).map
          (fun b => b.end_index - b.start_index) =
        (List.range' i fuel).map
          (fun j => base + if j < remainder then 1 else 0) := by
  intro fuel
  induction fuel with
  | zero => intro i cursor; rfl
  | succ f ih =>
      intro i cursor
      simp only [shardLoopGo, List.range', List.map_cons, ih]
      congr 1
      omega

theorem shardLoopGo_head (base remainder i cursor fuel : Nat) :
    (shardLoopGo base remainder i cursor (fuel + 1)).head?.map
      (fun b => b.start_index) = some cursor := rfl

theorem shardLoopGo_last_end (base remainder : Nat) :
    ∀ fuel i cursor, 0 < fuel →
      (shardLoopGo base remainder i cursor fuel).getLast?.map
        (fun b => b.end_index) = some (cursor + sizesFrom base remainder i fuel) := by
  intro fuel
  induction fuel with
  | zero => intro i cursor h; omega
  | succ f ih =>
      intro i cursor _
      rcases Nat.eq_zero_or_pos f with hf | hf
      · subst hf
        simp [shardLoopGo, sizesFrom]
      · rcases f with _ | f2
        · omega
        · rw [shardLoopGo, shardLoopGo, List.getLast?_cons_cons, ← shardLoopGo,
            ih _ _ hf]
          simp only [Option.map_some, Option.some.injEq, sizesFrom]
          omega

theorem shardLoopGo_chain (base remainder : Nat) :
    ∀ fuel i cursor,
      List.Chain' (fun a b => a.end_index = b.start_index)
        (shardLoopGo base remainder i cursor fuel) := by
  intro fuel
  induction fuel with
  | zero => intro i cursor; simp [shardLoopGo]
  | succ f ih =>
      intro i cursor
      rcases f with _ | f2
      · simp [shardLoopGo]
      · rw [shardLoopGo, shardLoopGo]
        refine List.chain'_cons.mpr ⟨rfl, ?_⟩
        rw [← shardLoopGo]
        exact ih (i + 1) (cursor + (base + if i < remainder then 1 else 0))

theorem mem_shardLoopGo (base remainder : Nat) :
    ∀ fuel i cursor x, x ∈ shardLoopGo base remainder i cursor fuel →
      cursor ≤ x.start_index ∧
      x.end_index = x.start_index + base + (if x.shard_id < remainder then 1 else 0) ∧
      x.end_index ≤ cursor + sizesFrom base remainder i fuel := by
  intro fuel
  induction fuel with
  | zero => intro i cursor x hx; simp [shardLoopGo] at hx
  | succ f ih =>
      intro i cursor x hx
      rw [shardLoopGo] at hx
      rcases List.mem_cons.mp hx with hx | hx
      · subst hx
        refine ⟨Nat.le_refl _, ?_, ?_⟩
        · simp only []
          omega
        · simp only [sizesFrom]
          omega
      · have h := ih (i + 1) (cursor + (base + if i < remainder then 1 else 0)) x hx
        refine ⟨by omega, h.2.1, ?_⟩
        have h2 := h.2.2
        simp only [sizesFrom]
        omega

theorem sizesFrom_eq (base remainder : Nat) :
    ∀ fuel i, sizesFrom base remainder i fuel =
      fuel * base + (min remainder (i + fuel) - min remainder i) := by
  intro fuel
  induction fuel with
  | zero => intro i; simp [sizesFrom]
  | succ f ih =>
      intro i
      rw [sizesFrom, ih (i + 1), Nat.succ_mul]
      have hmb : f * base = f * base := rfl
      rcases Nat.lt_or_ge i remainder with h | h
      · rw [if_pos h]
        generalize f * base = p
        omega
      · rw [if_neg (Nat.not_lt.mpr h)]
        generalize f * base = p
        omega

/-- The total size of all k shards is exactly total. -/
theorem sizesFrom_total (total k : Nat) (hk : 0 < k) :
    sizesFrom (total / k) (total % k) 0 k = total := by
  rw [sizesFrom_eq]
  have hmod : total % k < k := Nat.mod_lt _ hk
  have hdm := Nat.div_add_mod total k
  generalize k * (total / k) = p at hdm ⊢
  omega

theorem mkShardBounds_length (total k : Nat) : (mkShardBounds total k).length = k :=
  shardLoopGo_length _ _ k 0 0

theorem shardLoopGo_sum_sizes (base remainder : Nat) :
    ∀ fuel i cursor,
      ((shardLoopGo base remainder i cursor fuel).map
        (fun b => b.end_index - b.start_index)).sum =
      sizesFrom base remainder i fuel := by
  intro fuel
  induction fuel with
  | zero => intro i cursor; rfl
  | succ f ih =>
      intro i cursor
      simp only [shardLoopGo, List.map_cons, List.sum_cons, ih, sizesFrom]
      omega

/-- Inversion of checkedBounds: success returns exactly the built bounds. -/
theorem checkedBounds_ok {total k : Nat} {bs : List ShardBounds}
    (h : checkedBounds total k = .ok bs) : bs = mkShardBounds total k := by
  unfold checkedBounds at h
  split at h
  · cases h
  · split at h
    · cases h
    · cases h
      rfl

/-- Inversion of compute_shard_bounds: success means the count resolved to
a positive value within max_shards and the result is the built partition. -/
theorem compute_shard_bounds_ok {r : SweepRequest} {bs : List ShardBounds}
    (h : compute_shard_bounds r = .ok bs) :
    ∃ count : Int, resolveShardCount r = .ok count ∧ 0 < count ∧
      count ≤ r.max_shards ∧ bs = mkShardBounds r.total_points count.toNat := by
  unfold compute_shard_bounds at h
  cases hres : resolveShardCount r with
  | error e => rw [hres] at h; cases h
  | ok count =>
      rw [hres] at h
      dsimp only at h
      by_cases h1 : count ≤ 0
      · rw [if_pos h1] at h; cases h
      · rw [if_neg h1] at h
        by_cases h2 : count > r.max_shards
        · rw [if_pos h2] at h; cases h
        · rw [if_neg h2] at h
          exact ⟨count, rfl, by omega, by omega, checkedBounds_ok h⟩

/-- Any successful partition satisfies PartitionExact. -/
theorem mkShardBounds_partitionExact (total k : Nat) (hk : 0 < k) :
    PartitionExact total (mkShardBounds total k) := by
  have hlen := mkShardBounds_length total k
  have hne : mkShardBounds total k ≠ [] := by
    intro hcon
    rw [hcon] at hlen
    simp at hlen
    omega
  refine ⟨hne, ?_, ?_, ?_, ?_, ?_, ?_⟩
  · rw [hlen]
    rw [mkShardBounds, shardLoopGo_map_id, List.range_eq_range']
  · rcases k with _ | k2
    · omega
    · exact shardLoopGo_head _ _ 0 0 k2
  · rw [mkShardBounds, shardLoopGo_last_end _ _ k 0 0 hk, sizesFrom_total total k hk]
    simp
  · exact shardLoopGo_chain _ _ k 0 0
  · rw [mkShardBounds, shardLoopGo_sum_sizes, sizesFrom_total total k hk]
  · rw [hlen, mkShardBounds, shardLoopGo_map_size, List.range_eq_range']

example : validate_sweep_request examplePayload = .ok exampleRequest := by rfl

/-- Adjacent chains pass the pairsAdjacent re-verification. -/
theorem pairsAdjacent_of_chain :
    ∀ l : List ShardBounds,
      List.Chain' (fun a b => a.end_index = b.start_index) l →
      pairsAdjacent l = true := by
  intro l
  induction l with
  | nil => intro _; rfl
  | cons a t ih =>
      cases t with
      | nil => intro _; rfl
      | cons b rest =>
          intro h
          rw [List.chain'_cons] at h
          simp only [pairsAdjacent, Bool.and_eq_true, beq_iff_eq]
          exact ⟨h.1, ih h.2⟩

/-- Lists starting at 0 and ending at total pass the coverOK
re-verification. -/
theorem coverOK_of (total : Nat) (l : List ShardBounds)
    (h1 : l.head?.map (fun b => b.start_index) = some 0)
    (h2 : l.getLast?.map (fun b => b.end_index) = some total) :
    coverOK total l = true := by
  cases l with
  | nil => rfl
  | cons a t =>
      simp only [List.head?_cons, Option.map_some', Option.some.injEq] at h1
      cases hg : (a :: t).getLast? with
      | none =>
          rw [hg] at h2
          cases h2
      | some x =>
          rw [hg] at h2
          simp only [Option.map_some', Option.some.injEq] at h2
          simp only [coverOK, hg, h1, h2, beq_self_eq_true, Bool.and_self]

/-- The defensive re-verification never fires: checkedBounds succeeds for
every positive shard count. -/
theorem checkedBounds_succeeds (total k : Nat) (hk : 0 < k) :
    checkedBounds total k = .ok (mkShardBounds total k) := by
  obtain ⟨hne, _, hhead, hlast, hchain, _, _⟩ :=
    mkShardBounds_partitionExact total k hk
  unfold checkedBounds
  rw [coverOK_of total _ hhead hlast, pairsAdjacent_of_chain _ hchain]
  rfl

/-- Claim C1: for every validated request whose shard count resolves to a
positive value within max_shards, compute_shard_bounds returns (does not
raise), and the returned bounds are an exact partition of
[0, total_points): shard ids ascend from 0, the first start is 0, the last
end is total_points, adjacent bounds touch exactly, the sizes sum to
total_points, and precisely the first total mod k shards have size base+1
while the rest have size base; in particular the spec example with
dimensions a:[1,2], b:[1,2,3] and shard_count 4 yields bounds
[0,2),[2,4),[4,5),[5,6). -/
theorem claim_C1 (r : SweepRequest) (count : Int)
    (hres : resolveShardCount r = .ok count) (hpos : 0 < count)
    (hmax : count ≤ r.max_shards) :
    compute_shard_bounds r = .ok (mkShardBounds r.total_points count.toNat) ∧
    PartitionExact r.total_points (mkShardBounds r.total_points count.toNat) ∧
    (validate_sweep_request examplePayload).bind compute_shard_bounds =
      .ok [⟨0, 0, 2⟩, ⟨1, 2, 4⟩, ⟨2, 4, 5⟩, ⟨3, 5, 6⟩] := by
  refine ⟨?_, mkShardBounds_partitionExact _ _ (by omega), rfl⟩
  unfold compute_shard_bounds
  rw [hres]
  dsimp only
  rw [if_neg (by omega), if_neg (by omega)]
  exact checkedBounds_succeeds _ _ (by omega)

/-- Witness for claim C1 at the spec example. -/
theorem claim_C1_witness :
    (resolveShardCount exampleRequest = .ok 4 ∧ (0 : Int) < 4 ∧
      (4 : Int) ≤ exampleRequest.max_shards) ∧
    (compute_shard_bounds exampleRequest =
        .ok (mkShardBounds exampleRequest.total_points (4 : Int).toNat) ∧
      PartitionExact exampleRequest.total_points
        (mkShardBounds exampleRequest.total_points (4 : Int).toNat) ∧
      (validate_sweep_request examplePayload).bind compute_shard_bounds =
        .ok [⟨0, 0, 2⟩, ⟨1, 2, 4⟩, ⟨2, 4, 5⟩, ⟨3, 5, 6⟩]) :=
  ⟨⟨rfl, by decide, by decide⟩,
    claim_C1 exampleRequest 4 rfl (by decide) (by decide)⟩

/-- Claim C2: the evaluator is a pure deterministic function (two
invocations on the same arguments are identical), and its result is
exactly completed = state mod 200 + 10, abandoned = state div 10 mod 40,
revenue = completed * (500 + state mod 1200), where state is the first 8
bytes, big-endian, of the SHA-256 digest of run_id, str(shard_id), the
canonical key-sorted whitespace-free JSON of point, and str(seed) joined
by the separator "|". -/
theorem claim_C2 (run_id : String) (shard_id : Int)
    (point : List (String × PyVal)) (seed : Int) :
    deterministic_result run_id shard_id point seed =
      deterministic_result run_id shard_id point seed ∧
    deterministic_result run_id shard_id point seed =
      ⟨sha256_seed [run_id, toString shard_id, stable_json (.pdict point),
          toString seed] % 200 + 10,
        sha256_seed [run_id, toString shard_id, stable_json (.pdict point),
          toString seed] / 10 % 40,
        (sha256_seed [run_id, toString shard_id, stable_json (.pdict point),
            toString seed] % 200 + 10) *
          (500 + sha256_seed [run_id, toString shard_id,
            stable_json (.pdict point), toString seed] % 1200)⟩ :=
  ⟨rfl, rfl⟩

/-- Ceiling division in Nat: (t + s - 1) / s is the rational ceiling of
t / s for positive s. -/
theorem nat_ceil_div (t s : Nat) (hs : 0 < s) :
    ((t + s - 1) / s : Nat) = ⌈(t : ℚ) / (s : ℚ)⌉₊ := by
  have hsq : (0 : ℚ) < (s : ℚ) := by exact_mod_cast hs
  rcases Nat.eq_zero_or_pos t with ht | ht
  · subst ht
    have h0 : (s - 1) / s = 0 := Nat.div_eq_of_lt (by omega)
    simp [h0]
  · have hmod := Nat.div_add_mod (t + s - 1) s
    have hlt : (t + s - 1) % s < s := Nat.mod_lt _ hs
    rw [Nat.mul_comm] at hmod
    have hupper : ((t + s - 1) / s) * s ≤ t + s - 1 := by omega
    have hlower : t ≤ ((t + s - 1) / s) * s := by omega
    have hq1 : 1 ≤ (t + s - 1) / s := by
      rw [Nat.le_div_iff_mul_le hs]
      omega
    symm
    rw [Nat.ceil_eq_iff (by omega)]
    constructor
    · rw [lt_div_iff₀ hsq]
      have hnat : ((t + s - 1) / s - 1) * s < t := by
        rw [Nat.sub_mul, one_mul]
        omega
      exact_mod_cast hnat
    · rw [div_le_iff₀ hsq]
      exact_mod_cast hlower

/-- Counterexample to claim C3 as stated: a validated request may supply
both shard_count and shard_size, and then shard_count takes precedence, so
the resolved count is min(shard_count, total) rather than
ceil(total / shard_size): here 2 shards instead of ceil(6/1) = 6. -/
theorem claim_C3_counterexample :
    validate_sweep_request bothSpecPayload = .ok bothSpecRequest ∧
    bothSpecRequest.shard_size = some 1 ∧
    bothSpecRequest.total_points = 6 ∧
    resolveShardCount bothSpecRequest = .ok 2 ∧
    (compute_shard_bounds bothSpecRequest).map (fun bs => bs.length) = .ok 2 ∧
    (⌈(6 : ℚ) / (1 : ℚ)⌉₊ : Int) = 6 ∧
    (2 : Int) ≠ 6 :=
  ⟨rfl, rfl, rfl, rfl, rfl, by norm_num, by decide⟩

/-- Claim C3 as amended: when the request supplies shard_size s and no
shard_count, the resolved shard count is exactly ceil(total_points / s),
and on success compute_shard_bounds returns that many bounds. -/
theorem claim_C3 (r : SweepRequest) (s : Int)
    (hc : r.shard_count = none) (hs : r.shard_size = some s) (hpos : 0 < s) :
    resolveShardCount r =
      .ok ((⌈(r.total_points : ℚ) / (s : ℚ)⌉₊ : Int)) ∧
    ∀ bs, compute_shard_bounds r = .ok bs →
      bs.length = ⌈(r.total_points : ℚ) / (s : ℚ)⌉₊ := by
  have hres : resolveShardCount r =
      .ok ((⌈(r.total_points : ℚ) / (s : ℚ)⌉₊ : Int)) := by
    obtain ⟨sn, rfl⟩ : ∃ sn : Nat, (sn : Int) = s :=
      ⟨s.toNat, Int.toNat_of_nonneg (by omega)⟩
    have hsn : 0 < sn := by exact_mod_cast hpos
    unfold resolveShardCount
    rw [hc, hs]
    dsimp only
    congr 1
    have h1 : (r.total_points : Int) + (sn : Int) - 1 =
        ((r.total_points + sn - 1 : Nat) : Int) := by
      omega
    rw [h1, ← Int.natCast_div, nat_ceil_div _ _ hsn]
    simp only [Int.cast_natCast]
  refine ⟨hres, ?_⟩
  intro bs h
  obtain ⟨count, hres2, hposc, hmax, hbs⟩ := compute_shard_bounds_ok h
  rw [hres] at hres2
  have hcount : count = ((⌈(r.total_points : ℚ) / (s : ℚ)⌉₊ : Int)) := by
    cases hres2
    rfl
  subst hbs
  rw [mkShardBounds_length, hcount]
  exact Int.toNat_natCast _

/-- Claim C4, evaluated at a failing input.  The first half of the claim
holds: zero dispatch calls are made.  The second half does not: the
ValidationError that compute_shard_bounds raises for a shard count above
max_shards is raised outside the try/except of parent_handler (which
guards only normalization and validation), so it propagates as an uncaught
exception instead of being converted to a 400 response. -/
theorem claim_C4_bug :
    parent_handler maxShardsPayload (some "child-arn") (fun _ => some 202) =
      ([], .error (.validationError
        "Computed shard count 6 exceeds max_shards=2")) ∧
    ∀ resp, (parent_handler maxShardsPayload (some "child-arn")
      (fun _ => some 202)).2 ≠ .ok resp := by
  refine ⟨rfl, ?_⟩
  intro resp h
  rw [show (parent_handler maxShardsPayload (some "child-arn")
      (fun _ => some 202)).2 = .error (.validationError
        "Computed shard count 6 exceeds max_shards=2") from rfl] at h
  cases h

/-- Counterexample to claim C5 as stated: this request is validated with
shard_count=10 and a configured worker target, yet the coordinator makes
6 dispatch calls, not 10, because compute_shard_bounds clamps the count
to min(shard_count, total_points). -/
theorem claim_C5_counterexample :
    validate_sweep_request overcountPayload = .ok overcountRequest ∧
    overcountRequest.shard_count = some 10 ∧
    (parent_handler overcountPayload (some "child-arn")
      (fun _ => some 202)).1.length = 6 ∧
    (6 : Nat) ≠ 10 :=
  ⟨rfl, rfl, rfl, by decide⟩

/-- Claim C5 as amended: for every request validated with shard_count=k
(worker target configured, partition accepted), the coordinator makes
exactly min(k, total_points) dispatch invocations, each with the
asynchronous Event invocation type, and returns a 202 response whose
shards_dispatched count and per-shard manifest cover exactly those
shards (ids 0..n-1 in order). -/
theorem claim_C5 (event : PyDict) (arn : String)
    (client : Invocation → Option Nat) (req : SweepRequest)
    (bs : List ShardBounds) (harn : arn ≠ "")
    (hval : parseRequest event = .ok req)
    (hbounds : compute_shard_bounds req = .ok bs) :
    (parent_handler event (some arn) client).1 = bs.map (mkInvocation arn req) ∧
    (parent_handler event (some arn) client).1.length = bs.length ∧
    (∀ inv ∈ (parent_handler event (some arn) client).1,
      inv.invocationType = "Event" ∧ inv.functionName = arn) ∧
    (parent_handler event (some arn) client).2 =
      .ok ⟨202, successBody client arn req bs⟩ ∧
    pyField (successBody client arn req bs) "shards_dispatched" =
      some (.pint (bs.length : Int)) ∧
    pyField (successBody client arn req bs) "dispatches" =
      some (.plist (bs.map (mkDispatchEntry client arn req))) ∧
    bs.map (fun b => b.shard_id) = List.range bs.length ∧
    (∀ c, req.shard_count = some c →
      (bs.length : Int) = min c (req.total_points : Int)) := by
  have hout : parent_handler event (some arn) client =
      (bs.map (mkInvocation arn req), .ok ⟨202, successBody client arn req bs⟩) := by
    unfold parent_handler
    rw [hval]
    dsimp only [Option.getD]
    rw [if_neg harn, hbounds]
  obtain ⟨count, hres, hpos, hmax, hbs⟩ := compute_shard_bounds_ok hbounds
  refine ⟨?_, ?_, ?_, ?_, ?_, ?_, ?_, ?_⟩
  · rw [hout]
  · rw [hout]
    exact List.length_map _ _
  · intro inv hinv
    rw [hout] at hinv
    obtain ⟨b, _, hb⟩ := List.mem_map.mp hinv
    rw [← hb]
    exact ⟨rfl, rfl⟩
  · rw [hout]
  · rfl
  · rfl
  · have hids : (mkShardBounds req.total_points count.toNat).map
        (fun b => b.shard_id) =
        List.range (mkShardBounds req.total_points count.toNat).length :=
      (mkShardBounds_partitionExact _ _ (by omega)).2.1
    rw [hbs]
    exact hids
  · intro c hc
    rw [resolveShardCount, hc] at hres
    cases hres
    subst hbs
    rw [mkShardBounds_length]
    omega

/-- Witness for claim C5 at the spec example (shard_count 4 over 6
points, so min(4,6) = 4 dispatches). -/
theorem claim_C5_witness :
    (("child-arn" : String) ≠ "" ∧
      parseRequest examplePayload = .ok exampleRequest ∧
      compute_shard_bounds exampleRequest =
        .ok [⟨0, 0, 2⟩, ⟨1, 2, 4⟩, ⟨2, 4, 5⟩, ⟨3, 5, 6⟩]) ∧
    (parent_handler examplePayload (some "child-arn") (fun _ => some 202)).1 =
      [⟨0, 0, 2⟩, ⟨1, 2, 4⟩, ⟨2, 4, 5⟩, ⟨3, 5, 6⟩].map
        (mkInvocation "child-arn" exampleRequest) ∧
    (parent_handler examplePayload (some "child-arn") (fun _ => some 202)).1.length =
      ([⟨0, 0, 2⟩, ⟨1, 2, 4⟩, ⟨2, 4, 5⟩, ⟨3, 5, 6⟩] : List ShardBounds).length := by
  have h := claim_C5 examplePayload "child-arn" (fun _ => some 202) exampleRequest
    [⟨0, 0, 2⟩, ⟨1, 2, 4⟩, ⟨2, 4, 5⟩, ⟨3, 5, 6⟩] (by decide) rfl rfl
  exact ⟨⟨by decide, rfl, rfl⟩, h.1, h.2.1⟩

/-- Typed dimensions accepted by checkDimensions: as many entries as the
input, each value list non-empty and within the per-dimension ceiling. -/
theorem checkDimensions_ok :
    ∀ {kvs : List (String × PyVal)} {tds : List (String × List PyVal)},
      checkDimensions kvs = .ok tds →
      tds.length = kvs.length ∧
      ∀ d ∈ tds, d.2 ≠ [] ∧ d.2.length ≤ MAX_DIMENSION_VALUES := by
  intro kvs
  induction kvs with
  | nil =>
      intro tds h
      cases h
      refine ⟨rfl, ?_⟩
      intro d hd
      cases hd
  | cons kv rest ih =>
      intro tds h
      obtain ⟨name, v⟩ := kv
      rw [checkDimensions] at h
      by_cases hname : pyStrip name = ""
      · rw [if_pos hname] at h
        cases h
      · rw [if_neg hname] at h
        split at h
        · cases h
        · rename_i values hv
          by_cases hemp : values.isEmpty
          · rw [if_pos hemp] at h
            cases h
          · rw [if_neg hemp] at h
            by_cases hlen : values.length > MAX_DIMENSION_VALUES
            · rw [if_pos hlen] at h
              cases h
            · rw [if_neg hlen] at h
              cases hr : checkDimensions rest with
              | error e =>
                  rw [hr] at h
                  cases h
              | ok tl =>
                  rw [hr] at h
                  cases h
                  obtain ⟨hlen2, hmem⟩ := ih hr
                  refine ⟨by simp [hlen2], ?_⟩
                  intro d hd
                  rcases List.mem_cons.mp hd with hd1 | hd2
                  · subst hd1
                    dsimp only
                    refine ⟨?_, by omega⟩
                    intro hcon
                    rw [hcon] at hemp
                    exact hemp rfl
                  · exact hmem d hd2

/-- The dimensions getDims accepts are non-empty and well-bounded. -/
theorem getDims_ok {p : PyDict} {dims : List (String × List PyVal)}
    (h : getDims p = .ok dims) :
    dims ≠ [] ∧ ∀ d ∈ dims, d.2 ≠ [] ∧ d.2.length ≤ MAX_DIMENSION_VALUES := by
  unfold getDims at h
  cases hd : dictGet p "dimensions" with
  | none =>
      rw [hd] at h
      cases h
  | some v =>
      rw [hd] at h
      cases v with
      | pstr s => cases h
      | pint n => cases h
      | plist xs => cases h
      | pdict kvs =>
          dsimp only at h
          by_cases hemp : kvs.isEmpty
          · rw [if_pos hemp] at h
            cases h
          · rw [if_neg hemp] at h
            obtain ⟨hlen, hmem⟩ := checkDimensions_ok h
            refine ⟨?_, hmem⟩
            intro hcon
            subst hcon
            rw [List.length_nil] at hlen
            have : kvs = [] := List.eq_nil_of_length_eq_zero hlen.symm
            rw [this] at hemp
            exact hemp rfl

/-- checkPosIntOpt accepts only absent fields or positive integers, and a
none result means the field was absent. -/
theorem checkPosIntOpt_ok :
    ∀ {o : Option PyVal} {k : String} {res : Option Int},
      checkPosIntOpt o k = .ok res →
      (∀ c, res = some c → 0 < c) ∧ (res = none → o = none) := by
  intro o k res h
  cases o with
  | none =>
      cases h
      refine ⟨?_, fun _ => rfl⟩
      intro c hc
      cases hc
  | some v =>
      cases v with
      | pstr s => cases h
      | plist xs => cases h
      | pdict kvs => cases h
      | pint n =>
          rw [checkPosIntOpt] at h
          by_cases hn : n ≤ 0
          · rw [if_pos hn] at h
            cases h
          · rw [if_neg hn] at h
            cases h
            refine ⟨?_, ?_⟩
            · intro c hc
              cases hc
              omega
            · intro hcon
              cases hcon

/-- Positivity facts about the accepted shard_count / shard_size pair, and
at least one of the two is present. -/
theorem getShardSpec_ok {p : PyDict} {sc ss : Option Int}
    (h : getShardSpec p = .ok (sc, ss)) :
    (∀ c, sc = some c → 0 < c) ∧ (∀ s, ss = some s → 0 < s) ∧
    ¬(sc = none ∧ ss = none) := by
  unfold getShardSpec at h
  split at h
  · cases h
  · rename_i hboth
    cases h1 : checkPosIntOpt (dictGet p "shard_count") "shard_count" with
    | error e =>
        rw [h1] at h
        cases h
    | ok scv =>
        rw [h1] at h
        cases h2 : checkPosIntOpt (dictGet p "shard_size") "shard_size" with
        | error e =>
            rw [h2] at h
            cases h
        | ok ssv =>
            rw [h2] at h
            cases h
            obtain ⟨hc1, hc2⟩ := checkPosIntOpt_ok h1
            obtain ⟨hs1, hs2⟩ := checkPosIntOpt_ok h2
            refine ⟨hc1, hs1, ?_⟩
            rintro ⟨hcn, hsn⟩
            exact hboth ⟨by rw [hc2 hcn]; rfl, by rw [hs2 hsn]; rfl⟩

/-- The accepted running product is the product of the dimension lengths
(relative to the accumulator) and within the global ceiling whenever at
least one dimension exists. -/
theorem computeTotalPoints_ok :
    ∀ {dims : List (String × List PyVal)} {acc n : Nat},
      computeTotalPoints dims acc = .ok n →
      n = acc * (dims.map (fun d => d.2.length)).prod ∧
      (dims ≠ [] → n ≤ MAX_TOTAL_PARAMETER_POINTS) := by
  intro dims
  induction dims with
  | nil =>
      intro acc n h
      cases h
      refine ⟨by simp, ?_⟩
      intro hcon
      exact absurd rfl hcon
  | cons d rest ih =>
      intro acc n h
      rw [computeTotalPoints] at h
      by_cases hbig : acc * d.2.length > MAX_TOTAL_PARAMETER_POINTS
      · rw [if_pos hbig] at h
        cases h
      · rw [if_neg hbig] at h
        obtain ⟨hprod, hbound⟩ := ih h
        refine ⟨?_, ?_⟩
        · rw [hprod]
          simp [Nat.mul_assoc]
        · intro _
          cases hre : rest with
          | nil =>
              subst hre
              rw [hprod]
              simp only [List.map_nil, List.prod_nil, Nat.mul_one]
              omega
          | cons d2 rest2 =>
              exact hbound (by rw [hre]; exact List.cons_ne_nil _ _)

/-- Full inversion of validate_sweep_request: a success is assembled from
the seven accepted stages. -/
theorem validate_ok {p : PyDict} {r : SweepRequest}
    (h : validate_sweep_request p = .ok r) :
    ∃ run_id dims spec max_shards seed fis total,
      getRunId p = .ok run_id ∧ getDims p = .ok dims ∧
      getShardSpec p = .ok spec ∧ getMaxShards p = .ok max_shards ∧
      getSeed p = .ok seed ∧ getFis p = .ok fis ∧
      computeTotalPoints dims 1 = .ok total ∧
      r = { run_id := run_id
            dimensions := sortByKey dims
            total_points := total
            max_shards := max_shards
            seed := seed
            failure_injection_shards := sortInts fis.dedup
            shard_count := spec.1
            shard_size := spec.2 } := by
  unfold validate_sweep_request at h
  cases h1 : getRunId p with
  | error e =>
      rw [h1] at h
      cases h
  | ok run_id =>
  rw [h1] at h
  dsimp only at h
  cases h2 : getDims p with
  | error e =>
      rw [h2] at h
      cases h
  | ok dims =>
  rw [h2] at h
  dsimp only at h
  cases h3 : getShardSpec p with
  | error e =>
      rw [h3] at h
      cases h
  | ok spec =>
  rw [h3] at h
  dsimp only at h
  cases h4 : getMaxShards p with
  | error e =>
      rw [h4] at h
      cases h
  | ok max_shards =>
  rw [h4] at h
  dsimp only at h
  cases h5 : getSeed p with
  | error e =>
      rw [h5] at h
      cases h
  | ok seed =>
  rw [h5] at h
  dsimp only at h
  cases h6 : getFis p with
  | error e =>
      rw [h6] at h
      cases h
  | ok fis =>
  rw [h6] at h
  dsimp only at h
  cases h7 : computeTotalPoints dims 1 with
  | error e =>
      rw [h7] at h
      cases h
  | ok total =>
  rw [h7] at h
  dsimp only at h
  cases h
  exact ⟨run_id, dims, spec, max_shards, seed, fis, total,
    rfl, rfl, rfl, rfl, rfl, rfl, h7, rfl⟩

instance {α : Type} : IsTotal (String × α) (fun a b => pyStrLE a.1 b.1 = true) :=
  ⟨fun a b => by
    rcases le_total a.1 b.1 with h | h
    · exact Or.inl ((pyStrLE_iff _ _).mpr h)
    · exact Or.inr ((pyStrLE_iff _ _).mpr h)⟩

instance {α : Type} : IsTrans (String × α) (fun a b => pyStrLE a.1 b.1 = true) :=
  ⟨fun _ _ _ hab hbc => (pyStrLE_iff _ _).mpr
    (le_trans ((pyStrLE_iff _ _).mp hab) ((pyStrLE_iff _ _).mp hbc))⟩

/-- The keys of a key-sorted association list ascend in the String order. -/
theorem sortByKey_sorted {α : Type} (kvs : List (String × α)) :
    ((sortByKey kvs).map Prod.fst).Sorted (fun a b => a ≤ b) := by
  have hs : (sortByKey kvs).Sorted (fun a b => pyStrLE a.1 b.1 = true) :=
    List.sorted_insertionSort _ _
  exact List.Pairwise.map Prod.fst (fun a b hab => (pyStrLE_iff _ _).mp hab) hs

/-- sortByKey permutes its input. -/
theorem sortByKey_perm {α : Type} (kvs : List (String × α)) :
    (sortByKey kvs).Perm kvs :=
  List.perm_insertionSort _ _

/-- sortInts sorts. -/
theorem sortInts_sorted (l : List Int) :
    (sortInts l).Sorted (fun a b => a ≤ b) :=
  List.sorted_insertionSort _ _

/-- sortInts permutes its input. -/
theorem sortInts_perm (l : List Int) : (sortInts l).Perm l :=
  List.perm_insertionSort _ _

/-- Length of the reconstructed Cartesian product: the product of the
dimension value-list lengths. -/
theorem dimension_product_length :
    ∀ dims : List (String × List PyVal),
      (dimension_product dims).length =
        (dims.map (fun d => d.2.length)).prod := by
  intro dims
  induction dims with
  | nil => rfl
  | cons d rest ih =>
      obtain ⟨name, vs⟩ := d
      simp only [dimension_product, List.map_cons, List.prod_cons]
      rw [← ih]
      induction vs with
      | nil => simp
      | cons v vrest ihv =>
          simp only [List.flatMap_cons, List.length_append, List.length_map,
            List.length_cons]
          rw [ihv]
          ring

/-- Claim C9: every request accepted by validation is normalized as
NormalizedOK describes. -/
theorem claim_C9 (payload : PyDict) (r : SweepRequest)
    (h : validate_sweep_request payload = .ok r) : NormalizedOK payload r := by
  obtain ⟨run_id, dims, spec, ms, seed, fis, total,
    h1, h2, h3, h4, h5, h6, h7, hr⟩ := validate_ok h
  subst hr
  obtain ⟨hdne, hdmem⟩ := getDims_ok h2
  obtain ⟨hprod, hbound⟩ := computeTotalPoints_ok h7
  have hperm : (sortByKey dims).Perm dims := sortByKey_perm dims
  have hmaplen : ((sortByKey dims).map (fun d => d.2.length)).Perm
      (dims.map (fun d => d.2.length)) := hperm.map _
  refine ⟨sortByKey_sorted dims, ?_, ?_, ?_, ?_, ?_, ?_, ?_, ?_⟩
  · intro dkvs tds hdict hchk
    unfold getDims at h2
    rw [hdict] at h2
    dsimp only at h2
    split at h2
    · cases h2
    · rw [hchk] at h2
      cases h2
      exact hperm
  · dsimp only
    rw [hprod, Nat.one_mul, hmaplen.prod_eq]
  · dsimp only
    rw [hprod, Nat.one_mul]
    have hpos : ∀ a ∈ dims.map (fun d => d.2.length), 0 < a := by
      intro a ha
      obtain ⟨d, hd, hda⟩ := List.mem_map.mp ha
      have hne := (hdmem d hd).1
      rw [← hda]
      exact List.length_pos.mpr hne
    exact Nat.succ_le_of_lt (List.prod_pos hpos)
  · dsimp only
    exact hbound hdne
  · intro d hd
    exact hdmem d (hperm.mem_iff.mp hd)
  · exact sortInts_sorted _
  · exact ((sortInts_perm _).nodup_iff).mpr (List.nodup_dedup fis)
  · intro xs ns hdict hns x
    unfold getFis at h6
    rw [hdict] at h6
    dsimp only at h6
    rw [hns] at h6
    cases h6
    dsimp only
    rw [(sortInts_perm _).mem_iff, List.mem_dedup]

/-- Witness for claim C9 at c9Payload. -/
theorem claim_C9_witness :
    validate_sweep_request c9Payload = .ok c9Request ∧
    NormalizedOK c9Payload c9Request :=
  ⟨rfl, claim_C9 c9Payload c9Request rfl⟩

/-- Facts about an accepted request that compute_shard_bounds relies on:
a positive point count equal to the product of the dimension lengths, and
positive shard_count / shard_size when present. -/
theorem validate_facts {p : PyDict} {r : SweepRequest}
    (h : validate_sweep_request p = .ok r) :
    1 ≤ r.total_points ∧
    r.total_points = (r.dimensions.map (fun d => d.2.length)).prod ∧
    (∀ c, r.shard_count = some c → 0 < c) ∧
    (∀ s, r.shard_size = some s → 0 < s) := by
  obtain ⟨run_id, dims, spec, ms, seed, fis, total,
    h1, h2, h3, h4, h5, h6, h7, hr⟩ := validate_ok h
  obtain ⟨sc, ss⟩ := spec
  obtain ⟨hsc, hss, _⟩ := getShardSpec_ok h3
  subst hr
  obtain ⟨hdne, hdmem⟩ := getDims_ok h2
  obtain ⟨hprod, _⟩ := computeTotalPoints_ok h7
  have hperm : (sortByKey dims).Perm dims := sortByKey_perm dims
  have hmaplen : ((sortByKey dims).map (fun d => d.2.length)).Perm
      (dims.map (fun d => d.2.length)) := hperm.map _
  have hpos : ∀ a ∈ dims.map (fun d => d.2.length), 0 < a := by
    intro a ha
    obtain ⟨d, hd, hda⟩ := List.mem_map.mp ha
    rw [← hda]
    exact List.length_pos.mpr (hdmem d hd).1
  refine ⟨?_, ?_, hsc, hss⟩
  · dsimp only
    rw [hprod, Nat.one_mul]
    exact Nat.succ_le_of_lt (List.prod_pos hpos)
  · dsimp only
    rw [hprod, Nat.one_mul, hmaplen.prod_eq]

/-- The resolved shard count never exceeds the point count: min clamps the
supplied shard_count, and ceil(t/s) ≤ t for positive t and s. -/
theorem resolved_count_le {r : SweepRequest} {count : Int}
    (hres : resolveShardCount r = .ok count)
    (hss : ∀ s, r.shard_size = some s → 0 < s)
    (ht : 1 ≤ r.total_points) :
    count ≤ (r.total_points : Int) := by
  unfold resolveShardCount at hres
  cases hc : r.shard_count with
  | some c =>
      rw [hc] at hres
      cases hres
      exact min_le_right _ _
  | none =>
      rw [hc] at hres
      dsimp only at hres
      cases hs : r.shard_size with
      | none =>
          rw [hs] at hres
          cases hres
      | some s =>
          rw [hs] at hres
          cases hres
          have hspos := hss s hs
          obtain ⟨sn, rfl⟩ : ∃ sn : Nat, (sn : Int) = s :=
            ⟨s.toNat, Int.toNat_of_nonneg (by omega)⟩
          have hsn : 0 < sn := by exact_mod_cast hspos
          have h1 : (r.total_points : Int) + (sn : Int) - 1 =
              ((r.total_points + sn - 1 : Nat) : Int) := by omega
          rw [h1, ← Int.natCast_div]
          have hmul : r.total_points ≤ sn * r.total_points :=
            Nat.le_mul_of_pos_left _ hsn
          have hnat : (r.total_points + sn - 1) / sn ≤ r.total_points := by
            rw [Nat.div_le_iff_le_mul_add_pred hsn]
            omega
          exact_mod_cast hnat

/-- Claim C10: every ShardBounds the partitioner produces for a validated
request is non-empty and within [0, total_points], and the ShardTask the
coordinator builds from it reconstructs a product of exactly total_points
points and passes the executor bounds check, so run_shard succeeds (its
shard-bounds error branch is unreachable for coordinator-produced tasks). -/
theorem claim_C10 (payload : PyDict) (r : SweepRequest) (bs : List ShardBounds)
    (hv : validate_sweep_request payload = .ok r)
    (hb : compute_shard_bounds r = .ok bs) :
    ∀ b ∈ bs, b.start_index < b.end_index ∧ b.end_index ≤ r.total_points ∧
      (dimension_product (mkChildTask r b).dimensions).length = r.total_points ∧
      ∃ out, run_shard (mkChildTask r b) = .ok out := by
  obtain ⟨count, hres, hposc, hmax, hbs⟩ := compute_shard_bounds_ok hb
  obtain ⟨ht1, htprod, hsc, hss⟩ := validate_facts hv
  have hcle : count ≤ (r.total_points : Int) := resolved_count_le hres hss ht1
  have hk1 : 1 ≤ count.toNat := by omega
  have hkt : count.toNat ≤ r.total_points := by omega
  have hbase : 1 ≤ r.total_points / count.toNat :=
    (Nat.one_le_div_iff (by omega)).mpr hkt
  have hlenp : (dimension_product r.dimensions).length = r.total_points := by
    rw [dimension_product_length, ← htprod]
  intro b hbmem
  rw [hbs] at hbmem
  obtain ⟨hstart, hend, hendle⟩ :=
    mem_shardLoopGo (r.total_points / count.toNat) (r.total_points % count.toNat)
      count.toNat 0 0 b hbmem
  rw [sizesFrom_total _ _ (by omega), Nat.zero_add] at hendle
  have hlt : b.start_index < b.end_index := by
    rw [hend]
    rcases Nat.lt_or_ge b.shard_id (r.total_points % count.toNat) with hlt2 | hge
    · rw [if_pos hlt2]
      omega
    · rw [if_neg (Nat.not_lt.mpr hge)]
      omega
  refine ⟨hlt, hendle, hlenp, ?_⟩
  unfold run_shard
  dsimp only
  rw [if_neg ?hc]
  case hc =>
    dsimp only [mkChildTask]
    rw [hlenp]
    omega
  exact ⟨_, rfl⟩

/-- Witness for claim C10 at the spec example request and its bounds. -/
theorem claim_C10_witness :
    (validate_sweep_request examplePayload = .ok exampleRequest ∧
      compute_shard_bounds exampleRequest =
        .ok [⟨0, 0, 2⟩, ⟨1, 2, 4⟩, ⟨2, 4, 5⟩, ⟨3, 5, 6⟩]) ∧
    ∀ b ∈ ([⟨0, 0, 2⟩, ⟨1, 2, 4⟩, ⟨2, 4, 5⟩, ⟨3, 5, 6⟩] : List ShardBounds),
      b.start_index < b.end_index ∧ b.end_index ≤ exampleRequest.total_points ∧
      (dimension_product (mkChildTask exampleRequest b).dimensions).length =
        exampleRequest.total_points ∧
      ∃ out, run_shard (mkChildTask exampleRequest b) = .ok out :=
  ⟨⟨rfl, rfl⟩, claim_C10 examplePayload exampleRequest
    [⟨0, 0, 2⟩, ⟨1, 2, 4⟩, ⟨2, 4, 5⟩, ⟨3, 5, 6⟩] rfl rfl⟩

/-- getRunId only ever fails with a ValidationError. -/
theorem getRunId_error {p : PyDict} {e : PyErr} (h : getRunId p = .error e) :
    ∃ m, e = .validationError m := by
  unfold getRunId at h
  split at h
  · cases h
    exact ⟨_, rfl⟩
  · split at h
    · cases h
      exact ⟨_, rfl⟩
    · cases h
  · cases h
    exact ⟨_, rfl⟩

/-- A payload without a dimensions key fails validation with a
ValidationError. -/
theorem validate_missing_dims {p : PyDict} (hd : dictGet p "dimensions" = none) :
    ∃ m, validate_sweep_request p = .error (.validationError m) := by
  have hgd : getDims p = .error (.validationError
      "Missing required field \x27dimensions\x27") := by
    unfold getDims
    rw [hd]
  unfold validate_sweep_request
  cases hr : getRunId p with
  | error e =>
      obtain ⟨m, hm⟩ := getRunId_error hr
      subst hm
      exact ⟨m, rfl⟩
  | ok run_id =>
      rw [hgd]
      exact ⟨_, rfl⟩

/-- Claim C8: every request failing validation gets the structured 400
validation_error response with zero dispatch calls (the coordinator
performs no storage writes at all — the model records none); in
particular any request missing the dimensions field fails validation. -/
theorem claim_C8 :
    (∀ event childArn client m,
      parseRequest event = .error (.validationError m) →
      parent_handler event childArn client =
        ([], .ok ⟨400, .pdict [("error", .pstr "validation_error"),
          ("message", .pstr m)]⟩)) ∧
    (∀ event childArn client,
      dictGet event "body" = none → dictGet event "dimensions" = none →
      (parent_handler event childArn client).1 = [] ∧
      ∃ m, (parent_handler event childArn client).2 =
        .ok ⟨400, .pdict [("error", .pstr "validation_error"),
          ("message", .pstr m)]⟩) := by
  have hgen : ∀ event childArn client m,
      parseRequest event = .error (.validationError m) →
      parent_handler event childArn client =
        ([], .ok ⟨400, .pdict [("error", .pstr "validation_error"),
          ("message", .pstr m)]⟩) := by
    intro event childArn client m h
    unfold parent_handler
    rw [h]
  refine ⟨hgen, ?_⟩
  intro event childArn client hb hd
  have hpr : ∃ m, parseRequest event = .error (.validationError m) := by
    unfold parseRequest normalize_apigw_event
    rw [hb]
    exact validate_missing_dims hd
  obtain ⟨m, hm⟩ := hpr
  rw [hgen event childArn client m hm]
  exact ⟨rfl, ⟨m, rfl⟩⟩

/-- Witness for claim C8 at the missing-dimensions payload. -/
theorem claim_C8_witness :
    (dictGet missingDimsPayload "body" = none ∧
      dictGet missingDimsPayload "dimensions" = none) ∧
    ((parent_handler missingDimsPayload (some "arn") (fun _ => some 202)).1 = [] ∧
      ∃ m, (parent_handler missingDimsPayload (some "arn")
        (fun _ => some 202)).2 =
        .ok ⟨400, .pdict [("error", .pstr "validation_error"),
          ("message", .pstr m)]⟩) :=
  ⟨⟨rfl, rfl⟩,
    claim_C8.2 missingDimsPayload (some "arn") (fun _ => some 202) rfl rfl⟩

/-- A successful childAttempt always carries a success record with no
error fields. -/
theorem childAttempt_ok {task : ShardTask} {p date eventTime : String}
    {key : String} {record : OutcomeRecord} {ack : PyVal}
    (h : childAttempt task p date eventTime = .ok (key, record, ack)) :
    record.status = "success" ∧ record.error_code = none ∧
    record.error_message = none := by
  unfold childAttempt at h
  split at h
  · cases h
  · split at h
    · cases h
    · cases h
      exact ⟨rfl, rfl, rfl⟩

/-- Claim C6: with the storage location configured and the writer
succeeding, every child invocation performs exactly one outcome write;
the record is status=success when the handler returns normally, and on
any raised exception it is status=failure carrying the exception type
name as error_code and its message as error_message, with the original
error re-raised to the caller. -/
theorem claim_C6 (task : ShardTask) (bucket : String) (pfxEnv : Option String)
    (date eventTime : String) (hbucket : bucket ≠ "") :
    (child_handler task (some bucket) pfxEnv date eventTime).writes.length = 1 ∧
    (∀ ack, (child_handler task (some bucket) pfxEnv date eventTime).result = .ok ack →
      ∀ w ∈ (child_handler task (some bucket) pfxEnv date eventTime).writes,
        w.bucket = bucket ∧ w.record.status = "success" ∧
        w.record.error_code = none) ∧
    (∀ e, (child_handler task (some bucket) pfxEnv date eventTime).result = .error e →
      ∀ w ∈ (child_handler task (some bucket) pfxEnv date eventTime).writes,
        w.bucket = bucket ∧ w.record.status = "failure" ∧
        w.record.error_code = some e.typeName ∧
        w.record.error_message = some e.message) := by
  simp only [child_handler, Option.getD_some]
  rw [if_neg hbucket]
  cases hA : childAttempt task (pfxEnv.getD "serverless-sweeps/outcomes") date
      eventTime with
  | ok v =>
      obtain ⟨key, record, ack⟩ := v
      have hrec := childAttempt_ok hA
      refine ⟨rfl, ?_, ?_⟩
      · intro ack2 _ w hw
        rw [List.mem_singleton.mp hw]
        exact ⟨rfl, hrec.1, hrec.2.1⟩
      · intro e he
        cases he
  | error exc =>
      refine ⟨rfl, ?_, ?_⟩
      · intro ack hack
        cases hack
      · intro e he w hw
        cases he
        rw [List.mem_singleton.mp hw]
        exact ⟨rfl, rfl, rfl, rfl⟩

/-- Witness for claim C6 at a concrete injected-failure task. -/
theorem claim_C6_witness :
    (("results-bucket" : String) ≠ "") ∧
    ((child_handler ⟨"w6", [("a", [.pint 1])], 1, 0, 0, 1, 0, [0]⟩
        (some "results-bucket") none "2026-10-12" "t0").writes.length = 1 ∧
      (∀ ack, (child_handler ⟨"w6", [("a", [.pint 1])], 1, 0, 0, 1, 0, [0]⟩
          (some "results-bucket") none "2026-10-12" "t0").result = .ok ack →
        ∀ w ∈ (child_handler ⟨"w6", [("a", [.pint 1])], 1, 0, 0, 1, 0, [0]⟩
            (some "results-bucket") none "2026-10-12" "t0").writes,
          w.bucket = "results-bucket" ∧ w.record.status = "success" ∧
          w.record.error_code = none) ∧
      (∀ e, (child_handler ⟨"w6", [("a", [.pint 1])], 1, 0, 0, 1, 0, [0]⟩
          (some "results-bucket") none "2026-10-12" "t0").result = .error e →
        ∀ w ∈ (child_handler ⟨"w6", [("a", [.pint 1])], 1, 0, 0, 1, 0, [0]⟩
            (some "results-bucket") none "2026-10-12" "t0").writes,
          w.bucket = "results-bucket" ∧ w.record.status = "failure" ∧
          w.record.error_code = some e.typeName ∧
          w.record.error_message = some e.message)) :=
  ⟨by decide,
    claim_C6 ⟨"w6", [("a", [.pint 1])], 1, 0, 0, 1, 0, [0]⟩ "results-bucket"
      none "2026-10-12" "t0" (by decide)⟩

/-- Claim C7: executing all 4 dispatched tasks of the scenario with
shard_count=4 and failure_injection_shards=[2] yields exactly 4 outcome
records covering shard ids 0,1,2,3 in order, with shard 2 status=failure
(the injected RuntimeError) and all others status=success; moreover a
shard whose shard_id is injected fails identically for every dimensions
value and every start/end bounds, i.e. before any point computation. -/
theorem claim_C7 (date eventTime : String) :
    validate_sweep_request failPayload = .ok failRequest ∧
    compute_shard_bounds failRequest = .ok failBounds ∧
    (failOutcomes date eventTime).length = 4 ∧
    (failOutcomes date eventTime).map (fun w => w.record.shard_id) =
      [0, 1, 2, 3] ∧
    (failOutcomes date eventTime).map (fun w => w.record.status) =
      ["success", "success", "failure", "success"] ∧
    (failOutcomes date eventTime).map (fun w => w.record.error_code) =
      [none, none, some "RuntimeError", none] ∧
    (∀ dims s e, (child_handler ⟨"run-7", dims, 6, 2, s, e, 0, [2]⟩
        (some "results-bucket") none date eventTime).result =
      .error (.runtimeError "Injected shard failure for verification")) := by
  refine ⟨rfl, rfl, rfl, rfl, rfl, rfl, ?_⟩
  intro dims s e
  rfl

/-- Witness for claim C3: 6 points with shard_size 4 resolve to
ceil(6/4) = 2 shards. -/
theorem claim_C3_witness :
    (exampleRequestSize.shard_count = none ∧
      exampleRequestSize.shard_size = some 4 ∧ (0 : Int) < 4) ∧
    (resolveShardCount exampleRequestSize =
        .ok ((⌈(exampleRequestSize.total_points : ℚ) / ((4 : Int) : ℚ)⌉₊ : Int)) ∧
      ∀ bs, compute_shard_bounds exampleRequestSize = .ok bs →
        bs.length = ⌈(exampleRequestSize.total_points : ℚ) / ((4 : Int) : ℚ)⌉₊) :=
  ⟨⟨rfl, rfl, by norm_num⟩, claim_C3 exampleRequestSize 4 rfl rfl (by norm_num)⟩

end SweepVerify
